import Mathlib

/-!
Verification of the simulation core of a two-player paddle-and-ball game
(rusty-pong). The definitions below are a shallow embedding of the Rust
source: the score and serve-rotation engine (src/score.rs), the ball
velocity governor and serve (src/ball.rs), the predictive opponent's
trajectory predictor (src/player.rs), the collision-to-score resolver
(src/score.rs), and the match phase state machine (src/main.rs,
src/pause.rs, src/endgame.rs, src/score.rs).

Machine floats (f32) are embedded as real numbers; u32 counters as Nat;
Bevy entity handles as Nat; Bevy's Timer is embedded as its elapsed time
in seconds (a rational), which no claim below depends on. Randomness
(the serve-side coin flip in Score::new / Score::reset) is embedded as an
explicit Bool argument, following the injectable-random-source reading.
-/

/-! ## Score & serve-rotation engine (src/score.rs) -/

/-- State of the `Score` resource from src/score.rs. `serve_timer_elapsed`
embeds the Bevy `serve_timer` field by its elapsed seconds. -/
structure Score where
  p1 : Nat
  p2 : Nat
  server_is_p1 : Bool
  serve_count : Nat
  serve_timer_elapsed : ℚ
  should_serve : Bool
deriving DecidableEq

/-- Embedding of Score::new, with the random server choice made explicit. -/
def Score.new (server : Bool) : Score :=
  { p1 := 0
    p2 := 0
    server_is_p1 := server
    serve_count := 0
    serve_timer_elapsed := 0
    should_serve := false }

/-- The serve-switch threshold computed inside Score::add_point:
1 during deuce (both scores at 10 or more), otherwise 2. -/
def switch_threshold (p1 p2 : Nat) : Nat :=
  if 10 ≤ p1 ∧ 10 ≤ p2 then 1 else 2

/-- Embedding of Score::add_point: increment the scoring side, increment
the serve counter, then flip the server and reset the counter when the
counter reaches the (deuce-dependent) threshold. -/
def Score.add_point (s : Score) (p1_scored : Bool) : Score :=
  let s1 := if p1_scored then { s with p1 := s.p1 + 1 } else { s with p2 := s.p2 + 1 }
  let s2 := { s1 with serve_count := s1.serve_count + 1 }
  let threshold := switch_threshold s2.p1 s2.p2
  if threshold ≤ s2.serve_count then
    { s2 with server_is_p1 := !s2.server_is_p1, serve_count := 0 }
  else
    s2

/-- Embedding of Score::check_victory: a side wins with 11 or more points
and a lead of at least 2. -/
def Score.check_victory (s : Score) : Bool :=
  if 11 ≤ s.p1 ∧ s.p2 + 2 ≤ s.p1 then true
  else if 11 ≤ s.p2 ∧ s.p1 + 2 ≤ s.p2 then true
  else false

/-- Embedding of Score::reset, with the re-randomized server explicit. -/
def Score.reset (s : Score) (new_server : Bool) : Score :=
  { s with
    p1 := 0
    p2 := 0
    server_is_p1 := new_server
    serve_count := 0
    serve_timer_elapsed := 0
    should_serve := false }

/-- A sequence of award_point calls applied in order (each element tells
whether the point went to player 1). -/
def runPoints (s : Score) (ms : List Bool) : Score :=
  ms.foldl Score.add_point s

/-! ## Collision-to-score resolver (src/score.rs handle_scoring) -/

/-- The wall roles from src/board.rs: Left is Player 2's scoring wall,
Right is Player 1's. -/
inductive Wall where
  | Top
  | Bottom
  | Left
  | Right
deriving DecidableEq

/-- One collision-start notification naming two opaque entity handles
(Rapier CollisionEvent::Started). Handles are embedded as naturals. -/
structure CollisionStarted where
  e1 : Nat
  e2 : Nat
deriving DecidableEq

/-- Embedding of the body of handle_scoring's event loop (src/score.rs):
find a ball participant and a wall participant among the two handles; a
Left wall scores for P2, a Right wall for P1 (despawning the ball and
flagging a pending serve); any other combination does nothing. The result
is the updated score and the list of despawned ball entities. -/
def handle_scoring_event (balls : List Nat) (walls : List (Nat × Wall)) (sc : Score)
    (ev : CollisionStarted) : Score × List Nat :=
  let ball_entity := balls.find? (fun e => e == ev.e1 || e == ev.e2)
  let wall := (walls.find? (fun p => p.1 == ev.e1 || p.1 == ev.e2)).map Prod.snd
  match ball_entity, wall with
  | some be, some Wall.Left => ({ sc.add_point false with should_serve := true }, [be])
  | some be, some Wall.Right => ({ sc.add_point true with should_serve := true }, [be])
  | _, _ => (sc, [])

/-- Embedding of the whole handle_scoring loop over one frame's batch of
collision notifications. The ball and wall query results are fixed for the
frame, as Bevy queries are snapshots while despawns are deferred commands. -/
def handle_scoring (balls : List Nat) (walls : List (Nat × Wall)) (sc : Score)
    (events : List CollisionStarted) : Score × List Nat :=
  events.foldl
    (fun acc ev =>
      let r := handle_scoring_event balls walls acc.1 ev
      (r.1, acc.2 ++ r.2))
    (sc, [])

/-! ## Match phase state machine (src/main.rs, src/pause.rs, src/endgame.rs) -/

/-- The GameState enum from src/main.rs. Splash is the spec's Intro,
Playing its Active, GameOver its Finished. -/
inductive GameState where
  | Splash
  | Playing
  | Paused
  | GameOver
deriving DecidableEq

/-- Embedding of handle_pause (src/pause.rs): on a just-pressed space edge
it toggles between Playing and Paused and does nothing in any other state.
The result is the requested next state, if any. -/
def handle_pause (space_just_pressed : Bool) (current_state : GameState) :
    Option GameState :=
  if space_just_pressed then
    match current_state with
    | GameState.Playing => some GameState.Paused
    | GameState.Paused => some GameState.Playing
    | _ => none
  else
    none

/-- Embedding of the check_victory system (src/score.rs), gated to run only
in Playing: when Score::check_victory holds, every live ball is despawned
and the GameOver state is requested. The second component is the list of
despawned balls. -/
def check_victory_system (sc : Score) (balls : List Nat) :
    Option GameState × List Nat :=
  if sc.check_victory then (some GameState.GameOver, balls) else (none, [])

/-- Embedding of handle_endgame_input (src/endgame.rs), gated to run only in
GameOver: on a just-pressed space edge it resets the score (the
re-randomized server is the explicit argument) and requests Playing. -/
def handle_endgame_input (space_just_pressed : Bool) (sc : Score) (new_server : Bool) :
    Option (GameState × Score) :=
  if space_just_pressed then some (GameState.Playing, sc.reset new_server)
  else none

/-! ## Ball velocity governor and serve (src/ball.rs) -/

/-- glam Vec2 embedded as a pair of reals (f32 idealized as ℝ). -/
abbrev Vec2 := ℝ × ℝ

/-- Minimum ball speed, MIN_VELOCITY in src/ball.rs. -/
noncomputable def MIN_VELOCITY : ℝ := 7

/-- Maximum ball speed, MAX_VELOCITY in src/ball.rs. -/
noncomputable def MAX_VELOCITY : ℝ := 20

/-- glam Vec2::length. -/
noncomputable def Vec2.length (v : Vec2) : ℝ := Real.sqrt (v.1 ^ 2 + v.2 ^ 2)

/-- glam Vec2::normalize: the vector divided by its length. -/
noncomputable def Vec2.normalize (v : Vec2) : Vec2 :=
  (v.1 / Vec2.length v, v.2 / Vec2.length v)

/-- Embedding of maintain_ball_velocity (src/ball.rs) acting on one ball
velocity: non-zero velocities below MIN_VELOCITY are rescaled to
MIN_VELOCITY, above MAX_VELOCITY to MAX_VELOCITY, otherwise kept; the
rescaling multiplies the normalized direction by the new speed. A zero
velocity is left untouched to avoid normalizing a zero vector. -/
noncomputable def maintain_ball_velocity (v : Vec2) : Vec2 :=
  let current_speed := Vec2.length v
  if current_speed ≠ 0 then
    let new_speed :=
      if |current_speed| < MIN_VELOCITY then MIN_VELOCITY
      else if MAX_VELOCITY < |current_speed| then MAX_VELOCITY
      else current_speed
    ((Vec2.normalize v).1 * new_speed, (Vec2.normalize v).2 * new_speed)
  else
    v

/-- The transform position and linear velocity assigned by create_ball. -/
structure BallInit where
  position : Vec2
  velocity : Vec2

/-- Embedding of create_ball (src/ball.rs): the ball is spawned at the
origin with a horizontal velocity of magnitude MIN_VELOCITY, rightward when
served by Player 1 and leftward otherwise. -/
noncomputable def create_ball (served_by_p1 : Bool) : BallInit :=
  let direction : ℝ := if served_by_p1 then 1 else -1
  { position := (0, 0), velocity := (MIN_VELOCITY * direction, 0) }

/-! ## Predictive opponent controller (src/player.rs) -/

/-- The moving-toward guard inside predict_intersection (src/player.rs). -/
def moving_toward (ball_pos ball_vel : Vec2) (paddle_x : ℝ) : Prop :=
  (paddle_x > ball_pos.1 ∧ ball_vel.1 > 0) ∨ (paddle_x < ball_pos.1 ∧ ball_vel.1 < 0)

noncomputable instance (p v : Vec2) (x : ℝ) : Decidable (moving_toward p v x) := by
  unfold moving_toward
  infer_instance

/-- Embedding of predict_intersection (src/player.rs): when the ball moves
toward the paddle's x-plane, the linear-trajectory intersection height;
otherwise no prediction. -/
noncomputable def predict_intersection (ball_pos ball_vel : Vec2) (paddle_x : ℝ) :
    Option ℝ :=
  if moving_toward ball_pos ball_vel paddle_x then
    let time := (paddle_x - ball_pos.1) / ball_vel.1
    some (ball_pos.2 + ball_vel.2 * time)
  else
    none

/-! ## Helper lemmas about the score engine -/

theorem switch_threshold_pos (p1 p2 : Nat) : 0 < switch_threshold p1 p2 := by
  unfold switch_threshold
  split <;> omega

theorem switch_threshold_le_two (p1 p2 : Nat) : switch_threshold p1 p2 ≤ 2 := by
  unfold switch_threshold
  split <;> omega

/-- Closed form of add_point: the scoring side is incremented, and the
server/counter update is governed by whether the incremented counter
reaches the threshold for the post-increment scores. -/
theorem add_point_eq (s : Score) (b : Bool) :
    s.add_point b =
      { s with
        p1 := if b then s.p1 + 1 else s.p1
        p2 := if b then s.p2 else s.p2 + 1
        server_is_p1 :=
          if switch_threshold (if b then s.p1 + 1 else s.p1) (if b then s.p2 else s.p2 + 1) ≤
              s.serve_count + 1
          then !s.server_is_p1 else s.server_is_p1
        serve_count :=
          if switch_threshold (if b then s.p1 + 1 else s.p1) (if b then s.p2 else s.p2 + 1) ≤
              s.serve_count + 1
          then 0 else s.serve_count + 1 } := by
  unfold Score.add_point
  cases b <;> simp <;> split <;> simp_all

/-- The scores after add_point: the scoring side is incremented. -/
theorem add_point_scores (s : Score) (b : Bool) :
    (s.add_point b).p1 = (if b then s.p1 + 1 else s.p1) ∧
    (s.add_point b).p2 = (if b then s.p2 else s.p2 + 1) := by
  rw [add_point_eq]
  exact ⟨rfl, rfl⟩

/-- The serve counter after add_point, as a function of whether the flip
condition held. -/
theorem add_point_count_eq (s : Score) (b : Bool) :
    (s.add_point b).serve_count =
      if switch_threshold (s.add_point b).p1 (s.add_point b).p2 ≤ s.serve_count + 1 then 0
      else s.serve_count + 1 := by
  rw [add_point_eq]

/-- The serve counter after add_point: reset to 0 on a flip, otherwise
the old counter plus one. -/
theorem add_point_count (s : Score) (b : Bool) :
    (s.add_point b).serve_count = 0 ∨
    (s.add_point b).serve_count = s.serve_count + 1 := by
  rw [add_point_count_eq]
  split <;> simp

/-- The server flips exactly when the incremented counter reaches the
threshold computed from the post-increment scores. -/
theorem add_point_flip (s : Score) (b : Bool) :
    ((s.add_point b).server_is_p1 = !s.server_is_p1 ↔
      switch_threshold (s.add_point b).p1 (s.add_point b).p2 ≤ s.serve_count + 1) := by
  rw [add_point_eq]
  split <;> rename_i h <;> cases s.server_is_p1 <;> simp_all

/-- The invariant re-established by every single add_point call, from any
starting state: counter below the threshold for the current scores, counter
at most 1, and counter 0 during deuce. -/
theorem add_point_inv (s : Score) (b : Bool) :
    (s.add_point b).serve_count < switch_threshold (s.add_point b).p1 (s.add_point b).p2 ∧
    ((s.add_point b).serve_count = 0 ∨ (s.add_point b).serve_count = 1) ∧
    (10 ≤ (s.add_point b).p1 ∧ 10 ≤ (s.add_point b).p2 → (s.add_point b).serve_count = 0) := by
  have hce := add_point_count_eq s b
  have hth1 := switch_threshold_pos (s.add_point b).p1 (s.add_point b).p2
  have hth2 := switch_threshold_le_two (s.add_point b).p1 (s.add_point b).p2
  have hdeuce : 10 ≤ (s.add_point b).p1 ∧ 10 ≤ (s.add_point b).p2 →
      switch_threshold (s.add_point b).p1 (s.add_point b).p2 = 1 := by
    intro hd
    unfold switch_threshold
    simp [hd]
  by_cases hf : switch_threshold (s.add_point b).p1 (s.add_point b).p2 ≤ s.serve_count + 1
  · rw [hce, if_pos hf]
    exact ⟨hth1, Or.inl rfl, fun _ => rfl⟩
  · rw [hce, if_neg hf]
    refine ⟨by omega, by omega, ?_⟩
    intro hd
    have := hdeuce hd
    omega

/-- The serve-counter invariant holds along any run of add_point calls. -/
theorem runPoints_inv (ms : List Bool) (s : Score)
    (h : s.serve_count < switch_threshold s.p1 s.p2 ∧
         (s.serve_count = 0 ∨ s.serve_count = 1) ∧
         (10 ≤ s.p1 ∧ 10 ≤ s.p2 → s.serve_count = 0)) :
    (runPoints s ms).serve_count < switch_threshold (runPoints s ms).p1 (runPoints s ms).p2 ∧
    ((runPoints s ms).serve_count = 0 ∨ (runPoints s ms).serve_count = 1) ∧
    (10 ≤ (runPoints s ms).p1 ∧ 10 ≤ (runPoints s ms).p2 → (runPoints s ms).serve_count = 0) := by
  induction ms generalizing s with
  | nil => exact h
  | cons m rest ih =>
    exact ih (s.add_point m) (add_point_inv s m)

/-- The fresh scoring state satisfies the serve-counter invariant. -/
theorem new_inv (sv : Bool) :
    (Score.new sv).serve_count < switch_threshold (Score.new sv).p1 (Score.new sv).p2 ∧
    ((Score.new sv).serve_count = 0 ∨ (Score.new sv).serve_count = 1) ∧
    (10 ≤ (Score.new sv).p1 ∧ 10 ≤ (Score.new sv).p2 → (Score.new sv).serve_count = 0) := by
  simp [Score.new, switch_threshold]

/-! ## Claim theorems for the score engine -/

/-- C1: along any sequence of award_point calls from a fresh score, the
next add_point increments the scoring side's score, flips the server
exactly when the incremented counter reaches the threshold (1 when both
post-increment scores are at least 10, else 2); in deuce it therefore flips
on every point, and outside deuce it flips exactly when the counter was
already 1 (i.e. every second point), the counter being 0 or 1 throughout. -/
theorem claim_c1_serve_rotation (sv b : Bool) (ms : List Bool) (s t : Score)
    (hs : s = runPoints (Score.new sv) ms) (ht : t = s.add_point b) :
    (t.p1 = if b then s.p1 + 1 else s.p1) ∧
    (t.p2 = if b then s.p2 else s.p2 + 1) ∧
    (t.server_is_p1 = !s.server_is_p1 ↔ switch_threshold t.p1 t.p2 ≤ s.serve_count + 1) ∧
    (10 ≤ t.p1 ∧ 10 ≤ t.p2 → t.server_is_p1 = !s.server_is_p1 ∧ t.serve_count = 0) ∧
    (¬(10 ≤ t.p1 ∧ 10 ≤ t.p2) →
      ((s.serve_count = 1 → t.server_is_p1 = !s.server_is_p1 ∧ t.serve_count = 0) ∧
       (s.serve_count = 0 → t.server_is_p1 = s.server_is_p1 ∧ t.serve_count = 1))) ∧
    (s.serve_count = 0 ∨ s.serve_count = 1) := by
  have hinv := runPoints_inv ms (Score.new sv) (new_inv sv)
  rw [← hs] at hinv
  subst ht
  have hsc := add_point_scores s b
  have hflip := add_point_flip s b
  have hce := add_point_count_eq s b
  have hainv := add_point_inv s b
  refine ⟨hsc.1, hsc.2, hflip, ?_, ?_, hinv.2.1⟩
  · intro hd
    have hth : switch_threshold (s.add_point b).p1 (s.add_point b).p2 = 1 := by
      unfold switch_threshold
      simp [hd]
    exact ⟨hflip.mpr (by omega), hainv.2.2 hd⟩
  · intro hd
    have hth : switch_threshold (s.add_point b).p1 (s.add_point b).p2 = 2 := by
      unfold switch_threshold
      simp only [if_neg hd]
    constructor
    · intro h1
      have hf : switch_threshold (s.add_point b).p1 (s.add_point b).p2 ≤ s.serve_count + 1 := by
        omega
      exact ⟨hflip.mpr hf, by rw [hce, if_pos hf]⟩
    · intro h0
      have hnf : ¬ switch_threshold (s.add_point b).p1 (s.add_point b).p2 ≤ s.serve_count + 1 := by
        omega
      constructor
      · have hne := hflip.not.mpr hnf
        cases hsv : s.server_is_p1 <;> cases htv : (s.add_point b).server_is_p1 <;> simp_all
      · rw [hce, if_neg hnf, h0]

theorem claim_c1_serve_rotation_witness :
    (((Score.new true).add_point true).p1 =
        if true then (Score.new true).p1 + 1 else (Score.new true).p1) ∧
    (((Score.new true).add_point true).p2 =
        if true then (Score.new true).p2 else (Score.new true).p2 + 1) ∧
    (((Score.new true).add_point true).server_is_p1 = !(Score.new true).server_is_p1 ↔
      switch_threshold ((Score.new true).add_point true).p1 ((Score.new true).add_point true).p2 ≤
        (Score.new true).serve_count + 1) ∧
    (10 ≤ ((Score.new true).add_point true).p1 ∧ 10 ≤ ((Score.new true).add_point true).p2 →
      ((Score.new true).add_point true).server_is_p1 = !(Score.new true).server_is_p1 ∧
      ((Score.new true).add_point true).serve_count = 0) ∧
    (¬(10 ≤ ((Score.new true).add_point true).p1 ∧ 10 ≤ ((Score.new true).add_point true).p2) →
      (((Score.new true).serve_count = 1 →
          ((Score.new true).add_point true).server_is_p1 = !(Score.new true).server_is_p1 ∧
          ((Score.new true).add_point true).serve_count = 0) ∧
       ((Score.new true).serve_count = 0 →
          ((Score.new true).add_point true).server_is_p1 = (Score.new true).server_is_p1 ∧
          ((Score.new true).add_point true).serve_count = 1))) ∧
    ((Score.new true).serve_count = 0 ∨ (Score.new true).serve_count = 1) :=
  claim_c1_serve_rotation true true [] (Score.new true) ((Score.new true).add_point true) rfl rfl

/-- C2: check_victory is true exactly when one side has at least 11 points
and leads by at least 2; it is false whenever the larger score is below 11
or the absolute score difference is below 2, and the two sides' winning
conditions are mutually exclusive. -/
theorem claim_c2_victory_check (s : Score) :
    (s.check_victory = true ↔
      ((11 ≤ s.p1 ∧ s.p2 + 2 ≤ s.p1) ∨ (11 ≤ s.p2 ∧ s.p1 + 2 ≤ s.p2))) ∧
    (max s.p1 s.p2 < 11 ∨ ((s.p1 : ℤ) - (s.p2 : ℤ)).natAbs < 2 → s.check_victory = false) ∧
    ¬((11 ≤ s.p1 ∧ s.p2 + 2 ≤ s.p1) ∧ (11 ≤ s.p2 ∧ s.p1 + 2 ≤ s.p2)) := by
  have hiff : s.check_victory = true ↔
      ((11 ≤ s.p1 ∧ s.p2 + 2 ≤ s.p1) ∨ (11 ≤ s.p2 ∧ s.p1 + 2 ≤ s.p2)) := by
    unfold Score.check_victory
    by_cases h1 : 11 ≤ s.p1 ∧ s.p2 + 2 ≤ s.p1 <;>
      by_cases h2 : 11 ≤ s.p2 ∧ s.p1 + 2 ≤ s.p2 <;> simp [h1, h2]
  refine ⟨hiff, ?_, by omega⟩
  intro h
  have h1 : ¬(11 ≤ s.p1 ∧ s.p2 + 2 ≤ s.p1) := by omega
  have h2 : ¬(11 ≤ s.p2 ∧ s.p1 + 2 ≤ s.p2) := by omega
  unfold Score.check_victory
  simp [h1, h2]

theorem claim_c2_victory_check_witness :
    ((Score.new true).check_victory = true ↔
      ((11 ≤ (Score.new true).p1 ∧ (Score.new true).p2 + 2 ≤ (Score.new true).p1) ∨
       (11 ≤ (Score.new true).p2 ∧ (Score.new true).p1 + 2 ≤ (Score.new true).p2))) ∧
    (max (Score.new true).p1 (Score.new true).p2 < 11 ∨
        (((Score.new true).p1 : ℤ) - ((Score.new true).p2 : ℤ)).natAbs < 2 →
      (Score.new true).check_victory = false) ∧
    ¬((11 ≤ (Score.new true).p1 ∧ (Score.new true).p2 + 2 ≤ (Score.new true).p1) ∧
      (11 ≤ (Score.new true).p2 ∧ (Score.new true).p1 + 2 ≤ (Score.new true).p2)) :=
  claim_c2_victory_check (Score.new true)

/-- C6: immediately after every add_point update along any run from a fresh
score, the serve counter is below the threshold for the current scores; it
is always 0 or 1, and it is 0 whenever both scores are at least 10. -/
theorem claim_c6_counter_invariant (sv : Bool) (ms : List Bool) (s : Score)
    (hs : s = runPoints (Score.new sv) ms) :
    s.serve_count < switch_threshold s.p1 s.p2 ∧
    (s.serve_count = 0 ∨ s.serve_count = 1) ∧
    (10 ≤ s.p1 ∧ 10 ≤ s.p2 → s.serve_count = 0) := by
  subst hs
  exact runPoints_inv ms (Score.new sv) (new_inv sv)

theorem claim_c6_counter_invariant_witness :
    (runPoints (Score.new true) (List.replicate 10 true ++ List.replicate 10 false)).serve_count <
      switch_threshold
        (runPoints (Score.new true) (List.replicate 10 true ++ List.replicate 10 false)).p1
        (runPoints (Score.new true) (List.replicate 10 true ++ List.replicate 10 false)).p2 ∧
    ((runPoints (Score.new true) (List.replicate 10 true ++ List.replicate 10 false)).serve_count = 0 ∨
     (runPoints (Score.new true) (List.replicate 10 true ++ List.replicate 10 false)).serve_count = 1) ∧
    (10 ≤ (runPoints (Score.new true) (List.replicate 10 true ++ List.replicate 10 false)).p1 ∧
     10 ≤ (runPoints (Score.new true) (List.replicate 10 true ++ List.replicate 10 false)).p2 →
      (runPoints (Score.new true) (List.replicate 10 true ++ List.replicate 10 false)).serve_count = 0) :=
  claim_c6_counter_invariant true (List.replicate 10 true ++ List.replicate 10 false) _ rfl

/-! ## Claim theorems for the phase state machine -/

/-- C9: the phase step relation permits exactly the claimed input-driven
transitions: the space toggle swaps Playing and Paused symmetrically and
requests nothing in Splash or GameOver; the victory check requests GameOver
exactly when check_victory holds; and the restart input in GameOver resets
the score (zeroing both sides) and requests Playing. -/
theorem claim_c9_phase_machine :
    (∀ st st' : GameState, handle_pause true st = some st' ↔
      ((st = GameState.Playing ∧ st' = GameState.Paused) ∨
       (st = GameState.Paused ∧ st' = GameState.Playing))) ∧
    (∀ st : GameState, handle_pause false st = none) ∧
    (∀ (sc : Score) (balls : List Nat),
      ((check_victory_system sc balls).1 = some GameState.GameOver ↔
        sc.check_victory = true)) ∧
    (∀ (sc : Score) (balls : List Nat),
      sc.check_victory = false → (check_victory_system sc balls).1 = none) ∧
    (∀ (sc : Score) (r : Bool),
      handle_endgame_input true sc r = some (GameState.Playing, sc.reset r) ∧
      (sc.reset r).p1 = 0 ∧ (sc.reset r).p2 = 0 ∧
      handle_endgame_input false sc r = none) := by
  refine ⟨?_, ?_, ?_, ?_, ?_⟩
  · intro st st'
    cases st <;> cases st' <;> simp [handle_pause]
  · intro st
    cases st <;> simp [handle_pause]
  · intro sc balls
    unfold check_victory_system
    by_cases h : sc.check_victory <;> simp [h]
  · intro sc balls h
    unfold check_victory_system
    simp [h]
  · intro sc r
    refine ⟨rfl, rfl, rfl, rfl⟩

theorem claim_c9_phase_machine_witness :
    (handle_pause true GameState.Playing = some GameState.Paused ↔
      ((GameState.Playing = GameState.Playing ∧ GameState.Paused = GameState.Paused) ∨
       (GameState.Playing = GameState.Paused ∧ GameState.Paused = GameState.Playing))) ∧
    handle_pause false GameState.GameOver = none ∧
    ((Score.new true).check_victory = false →
      (check_victory_system (Score.new true) []).1 = none) ∧
    handle_endgame_input true (Score.new true) false =
      some (GameState.Playing, (Score.new true).reset false) :=
  ⟨claim_c9_phase_machine.1 GameState.Playing GameState.Paused,
   claim_c9_phase_machine.2.1 GameState.GameOver,
   claim_c9_phase_machine.2.2.2.1 (Score.new true) [],
   (claim_c9_phase_machine.2.2.2.2 (Score.new true) false).1⟩

/-! ## Helper lemmas for the collision resolver -/

/-- Finding the unique matching wall among distinct wall entities. -/
theorem find_wall_eq (walls : List (Nat × Wall)) (w : Nat) (role : Wall) (e1 e2 : Nat)
    (hmem : (w, role) ∈ walls)
    (hnodup : (walls.map Prod.fst).Nodup)
    (honly : ∀ p ∈ walls, (p.1 = e1 ∨ p.1 = e2) → p.1 = w)
    (hhit : w = e1 ∨ w = e2) :
    walls.find? (fun p => p.1 == e1 || p.1 == e2) = some (w, role) := by
  induction walls with
  | nil => simp at hmem
  | cons hd tl ih =>
    by_cases hp : hd.1 = e1 ∨ hd.1 = e2
    · have hw : hd.1 = w := honly hd (List.mem_cons_self hd tl) hp
      have hd_eq : hd = (w, role) := by
        rcases List.mem_cons.mp hmem with h | h
        · exact h.symm
        · exfalso
          have hmap : w ∈ tl.map Prod.fst := List.mem_map.mpr ⟨(w, role), h, rfl⟩
          have hn := (List.nodup_cons.mp hnodup).1
          rw [hw] at hn
          exact hn hmap
      rw [List.find?_cons_of_pos]
      · rw [hd_eq]
      · simp only [Bool.or_eq_true, beq_iff_eq]
        exact hp
    · rw [List.find?_cons_of_neg]
      · apply ih
        · rcases List.mem_cons.mp hmem with h | h
          · exfalso
            apply hp
            have hw1 : hd.1 = w := by rw [← h]
            rw [hw1]
            exact hhit
          · exact h
        · exact (List.nodup_cons.mp hnodup).2
        · intro p hpmem
          exact honly p (List.mem_cons_of_mem hd hpmem)
      · simp only [Bool.or_eq_true, beq_iff_eq]
        exact hp

/-- A find? over entities none of which participates returns nothing. -/
theorem find_none_of_no_hit (l : List Nat) (e1 e2 : Nat)
    (h : ∀ e ∈ l, e ≠ e1 ∧ e ≠ e2) :
    l.find? (fun e => e == e1 || e == e2) = none := by
  rw [List.find?_eq_none]
  intro a ha
  simp only [Bool.or_eq_true, beq_iff_eq]
  rintro (rfl | rfl)
  · exact (h a ha).1 rfl
  · exact (h a ha).2 rfl

/-! ## Claim theorems for the collision resolver -/

/-- C4: for a collision-start notification whose participants are the ball
and a wall (in either slot order), a Left wall yields exactly one P2 point
award and one ball despawn, a Right wall exactly one P1 point award and one
ball despawn, Top and Bottom walls yield no score mutation, and a
notification missing a known ball or wall participant does nothing. -/
theorem claim_c4_resolver (balls : List Nat) (walls : List (Nat × Wall)) (sc : Score)
    (b w : Nat) (role : Wall) (ev : CollisionStarted)
    (hballs : balls = [b])
    (hmem : (w, role) ∈ walls)
    (hnodup : (walls.map Prod.fst).Nodup)
    (hnoball : b ∉ walls.map Prod.fst)
    (hev : (ev.e1 = b ∧ ev.e2 = w) ∨ (ev.e1 = w ∧ ev.e2 = b)) :
    (role = Wall.Left →
      handle_scoring_event balls walls sc ev =
        ({ sc.add_point false with should_serve := true }, [b])) ∧
    (role = Wall.Right →
      handle_scoring_event balls walls sc ev =
        ({ sc.add_point true with should_serve := true }, [b])) ∧
    (role = Wall.Top ∨ role = Wall.Bottom →
      handle_scoring_event balls walls sc ev = (sc, [])) ∧
    (∀ f1 f2 : Nat,
      ((∀ e ∈ balls, e ≠ f1 ∧ e ≠ f2) ∨ (∀ p ∈ walls, p.1 ≠ f1 ∧ p.1 ≠ f2)) →
      handle_scoring_event balls walls sc ⟨f1, f2⟩ = (sc, [])) := by
  have hfind_ball : balls.find? (fun e => e == ev.e1 || e == ev.e2) = some b := by
    subst hballs
    rcases hev with ⟨h1, h2⟩ | ⟨h1, h2⟩
    · rw [List.find?_cons_of_pos]
      simp [h1]
    · rw [List.find?_cons_of_pos]
      simp [h2]
  have hfind_wall : walls.find? (fun p => p.1 == ev.e1 || p.1 == ev.e2) = some (w, role) := by
    apply find_wall_eq walls w role ev.e1 ev.e2 hmem hnodup
    · intro p hp hpe
      by_contra hne
      apply hnoball
      have hpb : p.1 = b := by
        rcases hev with ⟨h1, h2⟩ | ⟨h1, h2⟩ <;> rcases hpe with he | he <;>
          simp_all
      rw [← hpb]
      exact List.mem_map.mpr ⟨p, hp, rfl⟩
    · rcases hev with ⟨h1, h2⟩ | ⟨h1, h2⟩
      · right
        exact h2.symm
      · left
        exact h1.symm
  refine ⟨?_, ?_, ?_, ?_⟩
  · intro hrole
    subst hrole
    unfold handle_scoring_event
    rw [hfind_ball, hfind_wall]
    rfl
  · intro hrole
    subst hrole
    unfold handle_scoring_event
    rw [hfind_ball, hfind_wall]
    rfl
  · intro hrole
    unfold handle_scoring_event
    rw [hfind_ball, hfind_wall]
    rcases hrole with hrole | hrole <;> subst hrole <;> rfl
  · intro f1 f2 hmiss
    unfold handle_scoring_event
    rcases hmiss with hmiss | hmiss
    · rw [find_none_of_no_hit balls f1 f2 hmiss]
    · have : walls.find? (fun p => p.1 == f1 || p.1 == f2) = none := by
        rw [List.find?_eq_none]
        intro p hp
        simp only [Bool.or_eq_true, beq_iff_eq]
        rintro (h | h)
        · exact (hmiss p hp).1 h
        · exact (hmiss p hp).2 h
      rw [this]
      rcases hb : balls.find? (fun e => e == f1 || e == f2) with _ | be <;> rfl

theorem claim_c4_resolver_witness :
    ((1, Wall.Left) ∈ [(1, Wall.Left), (2, Wall.Right), (3, Wall.Top), (4, Wall.Bottom)]) ∧
    (([(1, Wall.Left), (2, Wall.Right), (3, Wall.Top), (4, Wall.Bottom)].map Prod.fst).Nodup) ∧
    (0 ∉ [(1, Wall.Left), (2, Wall.Right), (3, Wall.Top), (4, Wall.Bottom)].map Prod.fst) ∧
    handle_scoring_event [0] [(1, Wall.Left), (2, Wall.Right), (3, Wall.Top), (4, Wall.Bottom)]
        (Score.new true) ⟨1, 0⟩ =
      ({ (Score.new true).add_point false with should_serve := true }, [0]) :=
  ⟨by decide, by decide, by decide,
   (claim_c4_resolver [0] [(1, Wall.Left), (2, Wall.Right), (3, Wall.Top), (4, Wall.Bottom)]
      (Score.new true) 0 1 Wall.Left ⟨1, 0⟩ rfl (by decide) (by decide) (by decide)
      (Or.inr ⟨rfl, rfl⟩)).1 rfl⟩

/-! ## Helper lemmas about vector length and the governor -/

theorem length_nonneg (v : Vec2) : 0 ≤ Vec2.length v := Real.sqrt_nonneg _

theorem length_eq_zero_iff (v : Vec2) : Vec2.length v = 0 ↔ v = (0, 0) := by
  unfold Vec2.length
  rw [Real.sqrt_eq_zero']
  constructor
  · intro h
    have h1 : v.1 ^ 2 = 0 := by nlinarith [sq_nonneg v.1, sq_nonneg v.2]
    have h2 : v.2 ^ 2 = 0 := by nlinarith [sq_nonneg v.1, sq_nonneg v.2]
    exact Prod.ext_iff.mpr ⟨sq_eq_zero_iff.mp h1, sq_eq_zero_iff.mp h2⟩
  · intro h
    rw [h]
    norm_num

theorem length_pos (v : Vec2) (h : v ≠ (0, 0)) : 0 < Vec2.length v :=
  lt_of_le_of_ne (length_nonneg v) (fun he => h ((length_eq_zero_iff v).mp he.symm))

theorem length_scale (c : ℝ) (hc : 0 ≤ c) (v : Vec2) :
    Vec2.length (c * v.1, c * v.2) = c * Vec2.length v := by
  show Real.sqrt ((c * v.1) ^ 2 + (c * v.2) ^ 2) = c * Real.sqrt (v.1 ^ 2 + v.2 ^ 2)
  rw [show (c * v.1) ^ 2 + (c * v.2) ^ 2 = c ^ 2 * (v.1 ^ 2 + v.2 ^ 2) by ring,
      Real.sqrt_mul (sq_nonneg c), Real.sqrt_sq hc]

theorem length_horizontal (x : ℝ) : Vec2.length (x, (0 : ℝ)) = |x| := by
  show Real.sqrt (x ^ 2 + 0 ^ 2) = |x|
  rw [show x ^ 2 + (0 : ℝ) ^ 2 = x ^ 2 by ring, Real.sqrt_sq_eq_abs]

/-- For a non-zero velocity the governor scales the vector by a factor
t / length, where t is the clamped speed, within the configured band. -/
theorem maintain_spec (v : Vec2) (h : v ≠ (0, 0)) :
    ∃ t : ℝ, MIN_VELOCITY ≤ t ∧ t ≤ MAX_VELOCITY ∧
      maintain_ball_velocity v =
        ((t / Vec2.length v) * v.1, (t / Vec2.length v) * v.2) := by
  have hl : 0 < Vec2.length v := length_pos v h
  have habs : |Vec2.length v| = Vec2.length v := abs_of_nonneg hl.le
  have hform : ∀ t : ℝ,
      ((Vec2.normalize v).1 * t, (Vec2.normalize v).2 * t) =
        ((t / Vec2.length v) * v.1, (t / Vec2.length v) * v.2) := by
    intro t
    unfold Vec2.normalize
    exact Prod.ext_iff.mpr ⟨by ring, by ring⟩
  simp only [maintain_ball_velocity]
  rw [if_pos hl.ne', habs]
  by_cases h1 : Vec2.length v < MIN_VELOCITY
  · rw [if_pos h1]
    exact ⟨MIN_VELOCITY, le_refl _, by norm_num [MIN_VELOCITY, MAX_VELOCITY], hform _⟩
  · rw [if_neg h1]
    by_cases h2 : MAX_VELOCITY < Vec2.length v
    · rw [if_pos h2]
      exact ⟨MAX_VELOCITY, by norm_num [MIN_VELOCITY, MAX_VELOCITY], le_refl _, hform _⟩
    · rw [if_neg h2]
      exact ⟨Vec2.length v, not_lt.mp h1, not_lt.mp h2, hform _⟩

theorem maintain_length (v : Vec2) (h : v ≠ (0, 0)) :
    MIN_VELOCITY ≤ Vec2.length (maintain_ball_velocity v) ∧
    Vec2.length (maintain_ball_velocity v) ≤ MAX_VELOCITY := by
  obtain ⟨t, ht1, ht2, heq⟩ := maintain_spec v h
  have hl : 0 < Vec2.length v := length_pos v h
  have ht0 : 0 ≤ t := le_trans (by norm_num [MIN_VELOCITY]) ht1
  have hc : 0 ≤ t / Vec2.length v := div_nonneg ht0 hl.le
  rw [heq, length_scale _ hc v, div_mul_cancel₀ _ hl.ne']
  exact ⟨ht1, ht2⟩

theorem maintain_normalize (v : Vec2) (h : v ≠ (0, 0)) :
    Vec2.normalize (maintain_ball_velocity v) = Vec2.normalize v := by
  obtain ⟨t, ht1, ht2, heq⟩ := maintain_spec v h
  have hl : 0 < Vec2.length v := length_pos v h
  have ht0 : 0 < t := lt_of_lt_of_le (by norm_num [MIN_VELOCITY]) ht1
  have hc : 0 < t / Vec2.length v := div_pos ht0 hl
  rw [heq]
  unfold Vec2.normalize
  rw [length_scale _ hc.le v]
  exact Prod.ext_iff.mpr ⟨mul_div_mul_left _ _ hc.ne', mul_div_mul_left _ _ hc.ne'⟩

theorem maintain_fixed (v : Vec2) (h1 : MIN_VELOCITY ≤ Vec2.length v)
    (h2 : Vec2.length v ≤ MAX_VELOCITY) : maintain_ball_velocity v = v := by
  have hl : 0 < Vec2.length v := lt_of_lt_of_le (by norm_num [MIN_VELOCITY]) h1
  have habs : |Vec2.length v| = Vec2.length v := abs_of_nonneg hl.le
  simp only [maintain_ball_velocity]
  rw [if_pos hl.ne', habs, if_neg (not_lt.mpr h1), if_neg (not_lt.mpr h2)]
  unfold Vec2.normalize
  exact Prod.ext_iff.mpr ⟨div_mul_cancel₀ v.1 hl.ne', div_mul_cancel₀ v.2 hl.ne'⟩

theorem maintain_zero : maintain_ball_velocity (0, 0) = (0, 0) := by
  have h0 : Vec2.length (0, 0) = 0 := (length_eq_zero_iff (0, 0)).mpr rfl
  simp only [maintain_ball_velocity]
  exact if_neg (fun hne => hne h0)

/-- The length of normalize(v) scaled by a non-negative factor t is t. -/
theorem normalize_mul_length (v : Vec2) (h : v ≠ (0, 0)) (t : ℝ) (ht : 0 ≤ t) :
    Vec2.length ((Vec2.normalize v).1 * t, (Vec2.normalize v).2 * t) = t := by
  have hl : 0 < Vec2.length v := length_pos v h
  have hform : ((Vec2.normalize v).1 * t, (Vec2.normalize v).2 * t) =
      ((t / Vec2.length v) * v.1, (t / Vec2.length v) * v.2) := by
    unfold Vec2.normalize
    exact Prod.ext_iff.mpr ⟨by ring, by ring⟩
  rw [hform, length_scale _ (div_nonneg ht hl.le) v, div_mul_cancel₀ _ hl.ne']

/-- A non-zero velocity slower than MIN_VELOCITY is rescaled to exactly
MIN_VELOCITY. -/
theorem maintain_length_below (v : Vec2) (h : v ≠ (0, 0))
    (hlt : Vec2.length v < MIN_VELOCITY) :
    Vec2.length (maintain_ball_velocity v) = MIN_VELOCITY := by
  have hl : 0 < Vec2.length v := length_pos v h
  have habs : |Vec2.length v| = Vec2.length v := abs_of_nonneg hl.le
  simp only [maintain_ball_velocity]
  rw [if_pos hl.ne', habs, if_pos hlt]
  exact normalize_mul_length v h MIN_VELOCITY (by norm_num [MIN_VELOCITY])

/-- A velocity faster than MAX_VELOCITY is rescaled to exactly
MAX_VELOCITY. -/
theorem maintain_length_above (v : Vec2) (h : v ≠ (0, 0))
    (hgt : MAX_VELOCITY < Vec2.length v) :
    Vec2.length (maintain_ball_velocity v) = MAX_VELOCITY := by
  have hl : 0 < Vec2.length v := length_pos v h
  have habs : |Vec2.length v| = Vec2.length v := abs_of_nonneg hl.le
  have hnlt : ¬ Vec2.length v < MIN_VELOCITY := by
    have hmm : MIN_VELOCITY < MAX_VELOCITY := by norm_num [MIN_VELOCITY, MAX_VELOCITY]
    linarith
  simp only [maintain_ball_velocity]
  rw [if_pos hl.ne', habs, if_neg hnlt, if_pos hgt]
  exact normalize_mul_length v h MAX_VELOCITY (by norm_num [MAX_VELOCITY])

theorem maintain_five : maintain_ball_velocity (5, 0) = (7, 0) := by
  have h5 : Vec2.length ((5 : ℝ), (0 : ℝ)) = 5 := by
    rw [length_horizontal]
    norm_num
  simp only [maintain_ball_velocity, Vec2.normalize, h5]
  norm_num [MIN_VELOCITY, MAX_VELOCITY, Prod.ext_iff]

/-! ## Claim theorems for the governor, serve, and predictor -/

/-- C3: for every non-zero velocity one governor application follows the
range-clamp policy exactly: a speed below MIN_VELOCITY is rescaled to
exactly MIN_VELOCITY, a speed above MAX_VELOCITY to exactly MAX_VELOCITY,
and an in-band velocity is left completely unchanged; in all cases the
speed lands inside [MIN_VELOCITY, MAX_VELOCITY] and the normalized
direction is preserved; a zero velocity is left unchanged; and any number
of further applications keeps the speed inside the band. -/
theorem claim_c3_governor_band (v : Vec2) (h : v ≠ (0, 0)) :
    (Vec2.length v < MIN_VELOCITY →
      Vec2.length (maintain_ball_velocity v) = MIN_VELOCITY) ∧
    (MAX_VELOCITY < Vec2.length v →
      Vec2.length (maintain_ball_velocity v) = MAX_VELOCITY) ∧
    (MIN_VELOCITY ≤ Vec2.length v ∧ Vec2.length v ≤ MAX_VELOCITY →
      maintain_ball_velocity v = v) ∧
    MIN_VELOCITY ≤ Vec2.length (maintain_ball_velocity v) ∧
    Vec2.length (maintain_ball_velocity v) ≤ MAX_VELOCITY ∧
    Vec2.normalize (maintain_ball_velocity v) = Vec2.normalize v ∧
    maintain_ball_velocity (0, 0) = (0, 0) ∧
    ∀ n : Nat,
      MIN_VELOCITY ≤ Vec2.length (maintain_ball_velocity^[n] (maintain_ball_velocity v)) ∧
      Vec2.length (maintain_ball_velocity^[n] (maintain_ball_velocity v)) ≤ MAX_VELOCITY := by
  obtain ⟨hb1, hb2⟩ := maintain_length v h
  have hiter : ∀ n : Nat,
      maintain_ball_velocity^[n] (maintain_ball_velocity v) = maintain_ball_velocity v := by
    intro n
    induction n with
    | zero => rfl
    | succ k ih => rw [Function.iterate_succ_apply', ih, maintain_fixed _ hb1 hb2]
  refine ⟨maintain_length_below v h, maintain_length_above v h,
    fun hband => maintain_fixed v hband.1 hband.2,
    hb1, hb2, maintain_normalize v h, maintain_zero, ?_⟩
  intro n
  rw [hiter n]
  exact ⟨hb1, hb2⟩

theorem claim_c3_governor_band_witness :
    ((5 : ℝ), (0 : ℝ)) ≠ ((0 : ℝ), (0 : ℝ)) ∧
    Vec2.length ((5 : ℝ), (0 : ℝ)) < MIN_VELOCITY ∧
    Vec2.length (maintain_ball_velocity (5, 0)) = MIN_VELOCITY ∧
    MIN_VELOCITY ≤ Vec2.length (maintain_ball_velocity (5, 0)) ∧
    Vec2.length (maintain_ball_velocity (5, 0)) ≤ MAX_VELOCITY ∧
    Vec2.normalize (maintain_ball_velocity (5, 0)) = Vec2.normalize (5, 0) ∧
    maintain_ball_velocity (0, 0) = (0, 0) ∧
    MIN_VELOCITY ≤ Vec2.length (maintain_ball_velocity^[2] (maintain_ball_velocity (5, 0))) ∧
    Vec2.length (maintain_ball_velocity^[2] (maintain_ball_velocity (5, 0))) ≤ MAX_VELOCITY :=
  have h : ((5 : ℝ), (0 : ℝ)) ≠ ((0 : ℝ), (0 : ℝ)) := by norm_num [Prod.ext_iff]
  have h5 : Vec2.length ((5 : ℝ), (0 : ℝ)) < MIN_VELOCITY := by
    rw [length_horizontal]
    norm_num [MIN_VELOCITY]
  have c := claim_c3_governor_band (5, 0) h
  ⟨h, h5, c.1 h5, c.2.2.2.1, c.2.2.2.2.1, c.2.2.2.2.2.1, c.2.2.2.2.2.2.1,
   (c.2.2.2.2.2.2.2 2).1, (c.2.2.2.2.2.2.2 2).2⟩

/-- C5: the trajectory predictor yields the linear intersection
p.y + v.y * ((x - p.x) / v.x) exactly under the moving-toward guard
(x beyond p.x in the direction of v.x), and nothing otherwise; in
particular it yields nothing when v.x = 0. -/
theorem claim_c5_predictor (p v : Vec2) (x : ℝ) :
    (moving_toward p v x →
      predict_intersection p v x = some (p.2 + v.2 * ((x - p.1) / v.1))) ∧
    (¬ moving_toward p v x → predict_intersection p v x = none) ∧
    (v.1 = 0 → predict_intersection p v x = none) ∧
    (moving_toward p v x ↔ ((x > p.1 ∧ v.1 > 0) ∨ (x < p.1 ∧ v.1 < 0))) := by
  refine ⟨?_, ?_, ?_, Iff.rfl⟩
  · intro hm
    unfold predict_intersection
    rw [if_pos hm]
  · intro hm
    unfold predict_intersection
    rw [if_neg hm]
  · intro h0
    have hm : ¬ moving_toward p v x := by
      unfold moving_toward
      rw [h0]
      simp
    unfold predict_intersection
    rw [if_neg hm]

theorem claim_c5_predictor_witness :
    moving_toward ((0 : ℝ), (0 : ℝ)) ((1 : ℝ), (0 : ℝ)) 5 ∧
    predict_intersection ((0 : ℝ), (0 : ℝ)) ((1 : ℝ), (0 : ℝ)) 5 =
      some ((0 : ℝ) + 0 * ((5 - 0) / 1)) :=
  have hm : moving_toward ((0 : ℝ), (0 : ℝ)) ((1 : ℝ), (0 : ℝ)) 5 :=
    Or.inl ⟨by norm_num, by norm_num⟩
  ⟨hm, (claim_c5_predictor (0, 0) (1, 0) 5).1 hm⟩

/-- C7 counterexample: the governor maps velocity (5, 0) to (7, 0), not to
(10, 0): the code implements the range-clamp policy with minimum speed 7,
not the target-speed policy with target 10 asserted by the claim. -/
theorem claim_c7_counterexample :
    maintain_ball_velocity (5, 0) = (7, 0) ∧
    maintain_ball_velocity (5, 0) ≠ ((10 : ℝ), (0 : ℝ)) :=
  ⟨maintain_five, by rw [maintain_five]; norm_num [Prod.ext_iff]⟩

/-- C7 amended: applying the governor to velocity (5, 0) yields (7, 0)
(range-clamp policy, minimum speed MIN_VELOCITY = 7), and applying it to
(0, 0) leaves it unchanged. -/
theorem claim_c7_amended :
    maintain_ball_velocity (5, 0) = (7, 0) ∧
    maintain_ball_velocity (0, 0) = (0, 0) :=
  ⟨maintain_five, maintain_zero⟩

/-- C8: the governor and predictor are total: a zero-length velocity never
reaches normalization and is returned unchanged, a non-zero velocity has
non-zero length (so the normalization divisor is non-zero), and the
predictor's moving-toward guard forces v.x ≠ 0, a zero v.x yielding no
prediction. -/
theorem claim_c8_totality (p v : Vec2) (x : ℝ) :
    (Vec2.length v = 0 → maintain_ball_velocity v = v) ∧
    (v ≠ (0, 0) → Vec2.length v ≠ 0) ∧
    (moving_toward p v x → v.1 ≠ 0) ∧
    (v.1 = 0 → predict_intersection p v x = none) := by
  refine ⟨?_, ?_, ?_, ?_⟩
  · intro h0
    simp [maintain_ball_velocity, h0]
  · intro h
    exact (length_pos v h).ne'
  · intro hm
    rcases hm with ⟨_, hpos⟩ | ⟨_, hneg⟩
    · exact ne_of_gt hpos
    · exact ne_of_lt hneg
  · intro h0
    have hm : ¬ moving_toward p v x := by
      unfold moving_toward
      rw [h0]
      simp
    unfold predict_intersection
    rw [if_neg hm]

theorem claim_c8_totality_witness :
    Vec2.length ((0 : ℝ), (0 : ℝ)) = 0 ∧
    maintain_ball_velocity ((0 : ℝ), (0 : ℝ)) = ((0 : ℝ), (0 : ℝ)) ∧
    ((1 : ℝ), (0 : ℝ)).1 ≠ 0 :=
  have h0 : Vec2.length ((0 : ℝ), (0 : ℝ)) = 0 := (length_eq_zero_iff (0, 0)).mpr rfl
  have hm : moving_toward ((0 : ℝ), (0 : ℝ)) ((1 : ℝ), (0 : ℝ)) 5 :=
    Or.inl ⟨by norm_num, by norm_num⟩
  ⟨h0, (claim_c8_totality (0, 0) (0, 0) 0).1 h0,
   (claim_c8_totality (0, 0) (1, 0) 5).2.2.1 hm⟩

/-- C10: every serve creates the ball at the board center with a purely
horizontal velocity of magnitude exactly MIN_VELOCITY = 7: (7, 0) when
Player 1 serves and (-7, 0) when Player 2 serves, so the initial speed sits
at the bottom of the governor's band. -/
theorem claim_c10_serve_ball :
    create_ball true = { position := (0, 0), velocity := (7, 0) } ∧
    create_ball false = { position := (0, 0), velocity := (-7, 0) } ∧
    Vec2.length (create_ball true).velocity = MIN_VELOCITY ∧
    Vec2.length (create_ball false).velocity = MIN_VELOCITY ∧
    MIN_VELOCITY = 7 := by
  have h1 : create_ball true = { position := (0, 0), velocity := (7, 0) } := by
    norm_num [create_ball, MIN_VELOCITY, Prod.ext_iff]
  have h2 : create_ball false = { position := (0, 0), velocity := (-7, 0) } := by
    norm_num [create_ball, MIN_VELOCITY, Prod.ext_iff]
  refine ⟨h1, h2, ?_, ?_, rfl⟩
  · rw [h1]
    show Vec2.length ((7 : ℝ), (0 : ℝ)) = MIN_VELOCITY
    rw [length_horizontal]
    norm_num [MIN_VELOCITY]
  · rw [h2]
    show Vec2.length ((-7 : ℝ), (0 : ℝ)) = MIN_VELOCITY
    rw [length_horizontal]
    norm_num [MIN_VELOCITY]
